import Mathlib

/-!
# bookit-backend: the upload endpoint of `main.go`

A shallow embedding of `S3Client.uploadToS3` and `handleUpload`.
Everything outside the program is explicit:

* `Env` holds what the process reads but never changes (the `AWS_REGION`
  variable, the random identifiers `uuid.New()` hands out, the content sniffer);
* `World` holds what a call changes (how many identifiers were drawn, the put
  calls issued to the storage backend, the open file handles);
* the storage backend is the field `client` of `S3Client`: its answer to a put,
  given the puts issued earlier;
* the request carries what its URL and body hold as the field `parse`: the values
  `ParseForm` takes from the URL query, and the multipart form read from the body;
  `ParseMultipartForm` builds `r.Form` and `r.MultipartForm` from them, and a nil
  `r.MultipartForm` is `none`; dereferencing it is the `panic` result.

Go maps are association lists whose order is the order `range` visits them.
-/

set_option autoImplicit false

namespace Bookit

/-! ## Strings and paths -/

/-- The scan of `filepath.Ext`: `rev` holds the bytes of the path not yet visited, last
byte first; `acc` the bytes already visited, in path order. The loop stops at a path
separator and returns the suffix `path[i:]` at the first dot it meets. -/
def extScan : List Char → List Char → List Char
  | [], _ => []
  | c :: rev, acc =>
    if c = '/' then []
    else if c = '.' then '.' :: acc
    else extScan rev (c :: acc)

/-- The function `filepath.Ext` (Unix path separator). -/
def Ext (path : String) : String :=
  ⟨extScan path.data.reverse []⟩

/-- The last path element in the words of the documentation: what follows the final
separator. -/
def lastElement (cs : List Char) : List Char :=
  (cs.reverse.takeWhile (fun c => c != '/')).reverse

/-- The suffix starting at the final dot, empty when there is no dot. -/
def fromFinalDot (cs : List Char) : List Char :=
  if '.' ∈ cs then '.' :: (cs.reverse.takeWhile (fun c => c != '.')).reverse else []

/-- The extension as the documentation words it: the suffix starting at the final dot of
the last path element, empty when that element has no dot. -/
def extSpec (path : String) : String :=
  ⟨fromFinalDot (lastElement path.data)⟩

/-- A lowercase hexadecimal digit. -/
def isHexDigit (c : Char) : Bool :=
  ('0' ≤ c && c ≤ '9') || ('a' ≤ c && c ≤ 'f')

/-- The canonical text form of a UUID, as `UUID.String` prints it: 36 characters, dashes
at positions 8, 13, 18 and 23, lowercase hexadecimal digits elsewhere. -/
def isCanonicalUUID (u : String) : Bool :=
  u.data.length == 36 &&
  (List.range 36).all (fun i =>
    if i = 8 ∨ i = 13 ∨ i = 18 ∨ i = 23 then u.data.getD i ' ' == '-'
    else isHexDigit (u.data.getD i ' '))

/-! ## Go maps -/

/-- The read `m[k]` of a map: the zero value `none` when the key is absent. -/
def mapGet {β : Type} (m : List (String × β)) (k : String) : Option β :=
  (m.find? (fun e => e.1 == k)).map Prod.snd

/-- The assignment `m[k] = v`: replaces the entry of `k` or adds one. -/
def mapSet {β : Type} : List (String × β) → String → β → List (String × β)
  | [], k, v => [(k, v)]
  | (k', v') :: m, k, v => if k' = k then (k, v) :: m else (k', v') :: mapSet m k v

/-- The call `h.Del(k)`. -/
def mapDel {β : Type} (m : List (String × β)) (k : String) : List (String × β) :=
  m.filter (fun e => e.1 != k)

/-! ## Data model -/

/-- The struct `s3.PutObjectInput`, with the four fields the program sets. -/
structure PutObjectInput where
  Bucket : String
  Key : String
  Body : List UInt8
  ContentType : String
  deriving DecidableEq

/-- The struct `S3Client`. The field `client` stands for `s3.Client.PutObject`: given the
puts issued so far and the new input, the error message it returns, or `none` for a nil
error. -/
structure S3Client where
  client : List PutObjectInput → PutObjectInput → Option String
  bucket : String

/-- What the process reads and never writes. -/
structure Env where
  /-- The value of `os.Getenv("AWS_REGION")`. -/
  AWS_REGION : String
  /-- The text of the `n`-th identifier `uuid.New()` returns. -/
  uuid : Nat → String
  /-- The function `http.DetectContentType`. -/
  DetectContentType : List UInt8 → String

/-- What a call can change. -/
structure World where
  /-- How many identifiers `uuid.New()` has handed out. -/
  uuidCount : Nat
  /-- The put calls issued to the storage backend, oldest first. -/
  puts : List PutObjectInput
  /-- The file handles that are open, newest first. -/
  openFiles : List Nat
  /-- The next handle an open returns. -/
  nextHandle : Nat

/-- An opened `multipart.File`: `ReadAll` is the outcome of `io.ReadAll` on it. -/
structure multipart.File where
  ReadAll : Except String (List UInt8)

/-- The struct `multipart.FileHeader`: `Open` is the outcome of `fileHeader.Open()`. -/
structure multipart.FileHeader where
  Filename : String
  Open : Except String multipart.File

/-- The struct `multipart.Form`; `File` lists the file fields in the order `range`
visits them. -/
structure multipart.Form where
  Value : List (String × List String)
  File : List (String × List multipart.FileHeader)

/-- The struct `http.Request`, with the fields the handler touches. `parse` is what the
request holds, read under a given memory ceiling: first the values `ParseForm` puts in
`r.Form` (those of the URL query), second the multipart form `ReadForm` returns for the
body, `none` for a body that is not a readable multipart form. -/
structure Request where
  Method : String
  Form : List (String × List String)
  MultipartForm : Option multipart.Form
  parse : Nat → List (String × List String) × Option multipart.Form

/-- The struct `UploadResponse`. -/
structure UploadResponse where
  URLs : List (String × String)

/-- What has been written to the response body. -/
inductive Body where
  /-- Nothing was written. -/
  | empty
  /-- The line `fmt.Fprintln` wrote: the text followed by a newline. -/
  | line (text : String)
  /-- The JSON document `json.Encoder.Encode` wrote for the value, followed by a
  newline. -/
  | json (v : UploadResponse)

/-- The state of the `http.ResponseWriter`: `status` is `none` until the header is
written. -/
structure ResponseWriter where
  header : List (String × String)
  status : Option Nat
  body : Body

/-! ## Library calls -/

/-- The call `w.Header().Set(k, v)`. -/
def ResponseWriter.setHeader (w : ResponseWriter) (k v : String) : ResponseWriter :=
  { w with header := mapSet w.header k v }

/-- The call `w.WriteHeader(code)`; only the first one counts. -/
def ResponseWriter.WriteHeader (w : ResponseWriter) (code : Nat) : ResponseWriter :=
  match w.status with
  | none => { w with status := some code }
  | some _ => w

/-- The function `http.Error`. -/
def httpError (w : ResponseWriter) (error : String) (code : Nat) : ResponseWriter :=
  let w := { w with header := mapDel w.header "Content-Length" }
  let w := w.setHeader "Content-Type" "text/plain; charset=utf-8"
  let w := w.setHeader "X-Content-Type-Options" "nosniff"
  let w := w.WriteHeader code
  { w with body := Body.line error }

/-- The call `json.NewEncoder(w).Encode(v)`: the first write sends status 200 when no
header was written. -/
def jsonEncode (w : ResponseWriter) (v : UploadResponse) : ResponseWriter :=
  let w := w.WriteHeader 200
  { w with body := Body.json v }

/-- The loop `for k, v := range f.Value { r.Form[k] = append(r.Form[k], v...) }` of
`ParseMultipartForm`: the text values of the multipart form are appended, key by key,
to the values `r.Form` already holds. -/
def mergeValues (form : List (String × List String)) :
    List (String × List String) → List (String × List String)
  | [] => form
  | (k, v) :: value => mergeValues (mapSet form k ((mapGet form k).getD [] ++ v)) value

/-- The call `r.ParseMultipartForm(maxMemory)`: `ParseForm` fills `r.Form` from the URL
query; when the body reads as a multipart form, its text values are appended to
`r.Form` and `r.MultipartForm` is set; when it does not, the error is returned and
`r.MultipartForm` stays nil. -/
def ParseMultipartForm (r : Request) (maxMemory : Nat) : Request :=
  { r with
    Form :=
      (match (r.parse maxMemory).2 with
       | some f => mergeValues (r.parse maxMemory).1 f.Value
       | none => (r.parse maxMemory).1),
    MultipartForm := (r.parse maxMemory).2 }

/-- The call `r.FormValue(key)` on a request whose form was parsed: the first value of
the key, or the empty string. -/
def FormValue (r : Request) (key : String) : String :=
  match mapGet r.Form key with
  | some (v :: _) => v
  | _ => ""

/-- The call `fileHeader.Open()` when it succeeds: a new handle is open. -/
def World.openFile (w : World) : Nat × World :=
  (w.nextHandle, { w with openFiles := w.nextHandle :: w.openFiles,
                          nextHandle := w.nextHandle + 1 })

/-- The call `file.Close()`. -/
def World.closeFile (w : World) (h : Nat) : World :=
  { w with openFiles := w.openFiles.erase h }

/-- The deferred calls of a function run when it returns, last registered first;
`defers` holds them newest first. -/
def runDefers (defers : List Nat) (w : World) : World :=
  defers.foldl World.closeFile w

/-! ## The program -/

/-- The method `S3Client.uploadToS3`: returns the pair `(url, err)`. -/
def uploadToS3 (s : S3Client) (env : Env) (file : List UInt8) (directory filename : String)
    (w : World) : (String × Option String) × World :=
  let ext := Ext filename
  let uniqueFilename := directory ++ "/" ++ env.uuid w.uuidCount ++ ext
  let w := { w with uuidCount := w.uuidCount + 1 }
  let input : PutObjectInput :=
    { Bucket := s.bucket, Key := uniqueFilename, Body := file,
      ContentType := env.DetectContentType file }
  let err := s.client w.puts input
  let w := { w with puts := w.puts ++ [input] }
  match err with
  | some e => (("", some ("failed to upload file: " ++ e)), w)
  | none =>
    (("https://" ++ s.bucket ++ ".s3." ++ env.AWS_REGION ++ ".amazonaws.com/" ++ uniqueFilename,
      none), w)

/-- How the `range` loop of `handleUpload` ends. -/
inductive LoopEnd where
  /-- The loop ran to its end with these `urls`. -/
  | done (urls : List (String × String))
  /-- The body called `http.Error` with this text and status 500, and returned. -/
  | abort (error : String)

/-- The loop `for tag, files := range tags` of `handleUpload`. `defers` collects the
handles of the `defer file.Close()` statements, newest first. -/
def uploadLoop (s : S3Client) (env : Env) (directory : String) :
    List (String × List multipart.FileHeader) → List (String × String) → List Nat → World →
      LoopEnd × List Nat × World
  | [], urls, defers, w => (LoopEnd.done urls, defers, w)
  | (_, []) :: tags, urls, defers, w => uploadLoop s env directory tags urls defers w
  | (tag, fileHeader :: _) :: tags, urls, defers, w =>
    match fileHeader.Open with
    | .error err => (LoopEnd.abort ("Error opening file: " ++ err), defers, w)
    | .ok file =>
      let (h, w) := w.openFile
      let defers := h :: defers
      match file.ReadAll with
      | .error err => (LoopEnd.abort ("Error reading file: " ++ err), defers, w)
      | .ok fileBytes =>
        match uploadToS3 s env fileBytes directory fileHeader.Filename w with
        | ((_, some err), w) => (LoopEnd.abort ("Error uploading to S3: " ++ err), defers, w)
        | ((url, none), w) => uploadLoop s env directory tags (mapSet urls tag url) defers w

/-- What a call of the handler leaves behind: the response (or the panic that ended the
call before one was written), the request and the world. -/
structure Outcome where
  resp : Except String ResponseWriter
  req : Request
  world : World

/-- The handler `handleUpload(s3Client)`, called with a fresh response writer. -/
def handleUpload (s3Client : S3Client) (env : Env) (r : Request) (world : World) : Outcome :=
  let w : ResponseWriter := { header := [], status := none, body := Body.empty }
  let w := w.setHeader "Access-Control-Allow-Origin" "*"
  let w := w.setHeader "Access-Control-Allow-Methods" "POST, OPTIONS"
  let w := w.setHeader "Access-Control-Allow-Headers" "Content-Type"
  if r.Method = "OPTIONS" then
    { resp := .ok (w.WriteHeader 200), req := r, world := world }
  else
    let r := ParseMultipartForm r (10 <<< 20)
    let directory := if FormValue r "directory" = "" then "uploads" else FormValue r "directory"
    match r.MultipartForm with
    | none =>
      { resp := .error "runtime error: invalid memory address or nil pointer dereference",
        req := r, world := world }
    | some form =>
      let tags := form.File
      if tags.length = 0 then
        { resp := .ok (httpError w "No files uploaded" 400), req := r, world := world }
      else
        match uploadLoop s3Client env directory tags [] [] world with
        | (LoopEnd.abort error, defers, world) =>
          { resp := .ok (httpError w error 500), req := r, world := runDefers defers world }
        | (LoopEnd.done urls, defers, world) =>
          let w := w.setHeader "Content-Type" "application/json"
          { resp := .ok (jsonEncode w { URLs := urls }), req := r,
            world := runDefers defers world }

/-! ## Vocabulary of the statements -/

/-- The fields that carry at least one attachment, each with its first attachment, in
the order of the form. -/
def firstAttachments (tags : List (String × List multipart.FileHeader)) :
    List (String × multipart.FileHeader) :=
  tags.filterMap (fun t => t.2.head?.map (fun fh => (t.1, fh)))

/-- The bytes of an attachment that opens and reads (empty otherwise). -/
def contentOf (fh : multipart.FileHeader) : List UInt8 :=
  match fh.Open with
  | .ok f =>
    match f.ReadAll with
    | .ok b => b
    | .error _ => []
  | .error _ => []

/-- The key under which an attachment is stored when `u` is the identifier drawn. -/
def keyOf (directory u : String) (fh : multipart.FileHeader) : String :=
  directory ++ "/" ++ u ++ Ext fh.Filename

/-- The put that stores an attachment under `keyOf`. -/
def putOf (s : S3Client) (env : Env) (directory u : String) (fh : multipart.FileHeader) :
    PutObjectInput :=
  { Bucket := s.bucket, Key := keyOf directory u fh, Body := contentOf fh,
    ContentType := env.DetectContentType (contentOf fh) }

/-- The public URL of the object stored under `keyOf`. -/
def urlOf (s : S3Client) (env : Env) (directory u : String) (fh : multipart.FileHeader) :
    String :=
  "https://" ++ s.bucket ++ ".s3." ++ env.AWS_REGION ++ ".amazonaws.com/" ++ keyOf directory u fh

/-- The puts that store a list of attachments, one each, when the identifiers are drawn
from the `n`-th on. -/
def putsFrom (s : S3Client) (env : Env) (directory : String) :
    Nat → List (String × multipart.FileHeader) → List PutObjectInput
  | _, [] => []
  | n, (_, fh) :: fs => putOf s env directory (env.uuid n) fh :: putsFrom s env directory (n + 1) fs

/-- The field names of a list of attachments, each with the URL of its object, when the
identifiers are drawn from the `n`-th on. -/
def urlsFrom (s : S3Client) (env : Env) (directory : String) :
    Nat → List (String × multipart.FileHeader) → List (String × String)
  | _, [] => []
  | n, (tag, fh) :: fs =>
    (tag, urlOf s env directory (env.uuid n) fh) :: urlsFrom s env directory (n + 1) fs

/-- The three CORS headers, as the handler sets them. -/
def corsHeader : List (String × String) :=
  [("Access-Control-Allow-Origin", "*"), ("Access-Control-Allow-Methods", "POST, OPTIONS"),
   ("Access-Control-Allow-Headers", "Content-Type")]

/-- The first value a set of values holds for a key, `none` when it holds none. -/
def firstValue (values : List (String × List String)) (key : String) : Option String :=
  match mapGet values key with
  | some (v :: _) => some v
  | _ => none

/-- The directory the handler stores under: the `directory` value `FormValue` reads
after the parse, `uploads` when that is empty. -/
def directoryOf (r : Request) : String :=
  if FormValue (ParseMultipartForm r (10 <<< 20)) "directory" = "" then "uploads"
  else FormValue (ParseMultipartForm r (10 <<< 20)) "directory"

/-- What it means that a call of the handler stored under the prefix `pre`: every put it
issued has a key that starts with `pre`, and every URL of a JSON response is the bucket's
address followed by a key that starts with `pre`. -/
def storesUnder (s : S3Client) (env : Env) (w : World) (out : Outcome) (pre : String) : Prop :=
  (∃ new, out.world.puts = w.puts ++ new ∧ ∀ p ∈ new, ∃ rest, p.Key = pre ++ rest) ∧
  (∀ rw v, out.resp = .ok rw → rw.body = Body.json v → ∀ x ∈ v.URLs, ∃ rest,
    x.2 = "https://" ++ s.bucket ++ ".s3." ++ env.AWS_REGION ++ ".amazonaws.com/" ++
      (pre ++ rest))

/-! ## Sample inputs -/

/-- A region, two canonical identifiers in turn, and a constant sniffer. -/
def sampleEnv : Env :=
  { AWS_REGION := "eu-west-1"
    uuid := fun n =>
      if n % 2 = 0 then "123e4567-e89b-42d3-a456-426614174000"
      else "9b2f0c1a-7d4e-4f6b-8a3c-5e1d2f3a4b5c"
    DetectContentType := fun _ => "application/octet-stream" }

/-- A backend that accepts every put. -/
def okClient : S3Client :=
  { client := fun _ _ => none, bucket := "bookit" }

/-- A backend that refuses its second put. -/
def secondFailsClient : S3Client :=
  { client := fun earlier _ => if earlier.length = 1 then some "AccessDenied" else none,
    bucket := "bookit" }

/-- A backend that refuses every put. -/
def refusingClient : S3Client :=
  { client := fun _ _ => some "AccessDenied", bucket := "bookit" }

/-- A world with nothing drawn, stored or open. -/
def sampleWorld : World :=
  { uuidCount := 0, puts := [], openFiles := [], nextHandle := 3 }

/-- An attachment that opens and reads as two bytes. -/
def sampleFile (name : String) : multipart.FileHeader :=
  { Filename := name, Open := .ok { ReadAll := .ok [1, 2] } }

/-- A request of the given method, not yet parsed, with the given values in its URL
query, whose body parses to the given form (`none` for a body that does not parse). -/
def queryRequest (method : String) (query : List (String × List String))
    (form : Option multipart.Form) : Request :=
  { Method := method, Form := [], MultipartForm := none, parse := fun _ => (query, form) }

/-- A request of the given method, not yet parsed, with no URL query, whose body parses
to the given form (`none` for a body that does not parse). -/
def sampleRequest (method : String) (form : Option multipart.Form) : Request :=
  queryRequest method [] form

/-- A form with one file field and no `directory` field. -/
def plainField : multipart.Form :=
  { Value := [], File := [("cover", [sampleFile "a.png"])] }

/-- A form with the directory `archive` and no file field. -/
def noFields : multipart.Form :=
  { Value := [("directory", ["archive"])], File := [] }

/-- A form with three file fields and the directory `archive`. -/
def threeFields : multipart.Form :=
  { Value := [("directory", ["archive"])],
    File := [("cover", [sampleFile "a.png", sampleFile "ignored.gif"]),
             ("menu", [sampleFile "b.tar.gz"]), ("logo", [sampleFile "c"])] }

/-! ## The extension of a file name -/

theorem extScan_eq (rev acc : List Char) :
    extScan rev acc =
      if '.' ∈ rev.takeWhile (fun c => c != '/') then
        '.' :: ((rev.takeWhile (fun c => c != '/')).takeWhile (fun c => c != '.')).reverse ++ acc
      else [] := by
  induction rev generalizing acc with
  | nil => simp [extScan]
  | cons c rev ih =>
    by_cases hs : c = '/'
    · simp [extScan, hs]
    · by_cases hd : c = '.'
      · subst hd
        simp [extScan, List.takeWhile_cons]
      · have hd2 : ¬ '.' = c := fun h => hd h.symm
        simp [extScan, hs, hd, hd2, ih, List.takeWhile_cons]

theorem Ext_eq_extSpec (path : String) : Ext path = extSpec path := by
  simp [Ext, extSpec, extScan_eq, fromFinalDot, lastElement]

theorem extScan_no_separator (rev acc : List Char) (h : '/' ∉ acc) :
    '/' ∉ extScan rev acc := by
  induction rev generalizing acc with
  | nil => simp [extScan]
  | cons c rev ih =>
    by_cases hs : c = '/'
    · simp [extScan, hs]
    · by_cases hd : c = '.'
      · subst hd
        simp only [extScan, hs, if_false, if_true]
        intro hmem
        rcases List.mem_cons.1 hmem with h1 | h1
        · exact absurd h1 (by decide)
        · exact h h1
      · simp only [extScan, hs, hd, if_false]
        apply ih
        intro hmem
        rcases List.mem_cons.1 hmem with h1 | h1
        · exact hs h1.symm
        · exact h h1

theorem Ext_no_separator (path : String) : '/' ∉ (Ext path).data :=
  extScan_no_separator _ _ (by simp)

/-! ## Keys and URLs of `uploadToS3` -/

theorem canonicalUUID_length (u : String) (h : isCanonicalUUID u = true) :
    u.data.length = 36 := by
  simp only [isCanonicalUUID, Bool.and_eq_true, beq_iff_eq] at h
  exact h.1

theorem canonicalUUID_no_separator (u : String) (h : isCanonicalUUID u = true) :
    '/' ∉ u.data := by
  intro hmem
  have hl := canonicalUUID_length u h
  simp only [isCanonicalUUID, Bool.and_eq_true, List.all_eq_true, List.mem_range] at h
  obtain ⟨i, hi, hget⟩ := List.mem_iff_getElem.1 hmem
  have hall := h.2 i (hl ▸ hi)
  have hd : u.data.getD i ' ' = '/' := by
    rw [List.getD_eq_getElem _ _ hi, hget]
  rw [hd] at hall
  split at hall
  · exact absurd hall (by decide)
  · exact absurd hall (by decide)

/-- Two lists that end in a separator followed by separator-free tails are equal only
when both parts are. -/
theorem split_at_last_separator (d1 d2 t1 t2 : List Char) (h1 : '/' ∉ t1) (h2 : '/' ∉ t2)
    (h : d1 ++ '/' :: t1 = d2 ++ '/' :: t2) : d1 = d2 ∧ t1 = t2 := by
  induction d1 generalizing d2 with
  | nil =>
    cases d2 with
    | nil => simpa using h
    | cons c d2 =>
      simp only [List.nil_append, List.cons_append, List.cons.injEq] at h
      exact absurd (h.2 ▸ (by simp : '/' ∈ d2 ++ '/' :: t2)) h1
  | cons c d1 ih =>
    cases d2 with
    | nil =>
      simp only [List.nil_append, List.cons_append, List.cons.injEq] at h
      exact absurd (h.2 ▸ (by simp : '/' ∈ d1 ++ '/' :: t1)) h2
    | cons c2 d2 =>
      simp only [List.cons_append, List.cons.injEq] at h
      obtain ⟨hd, ht⟩ := ih d2 h.2
      exact ⟨by rw [h.1, hd], ht⟩

/-- Keys built from distinct canonical identifiers differ, whatever the directories and
file names. -/
theorem key_ne (dir1 dir2 u1 u2 fn1 fn2 : String)
    (hu1 : isCanonicalUUID u1 = true) (hu2 : isCanonicalUUID u2 = true) (hne : u1 ≠ u2) :
    dir1 ++ "/" ++ u1 ++ Ext fn1 ≠ dir2 ++ "/" ++ u2 ++ Ext fn2 := by
  intro h
  have hd := String.ext_iff.1 h
  simp only [String.data_append] at hd
  simp only [List.append_assoc, List.singleton_append] at hd
  have n1 : '/' ∉ u1.data ++ (Ext fn1).data := by
    simp only [List.mem_append, not_or]
    exact ⟨canonicalUUID_no_separator u1 hu1, Ext_no_separator fn1⟩
  have n2 : '/' ∉ u2.data ++ (Ext fn2).data := by
    simp only [List.mem_append, not_or]
    exact ⟨canonicalUUID_no_separator u2 hu2, Ext_no_separator fn2⟩
  have ht := (split_at_last_separator _ _ _ _ n1 n2 hd).2
  have hu := (List.append_inj ht (by
    rw [canonicalUUID_length u1 hu1, canonicalUUID_length u2 hu2])).1
  exact hne (String.ext_iff.2 hu)

theorem append_left_cancel (p a b : String) (h : p ++ a = p ++ b) : a = b := by
  have hd := String.ext_iff.1 h
  simp only [String.data_append] at hd
  exact String.ext_iff.2 (List.append_cancel_left hd)

theorem append_ne_empty (p a : String) (hp : p ≠ "") : p ++ a ≠ "" := by
  intro h
  have hd := String.ext_iff.1 h
  simp only [String.data_append] at hd
  exact hp (String.ext_iff.2 (List.append_eq_nil.1 hd).1)

/-- The URL and error `uploadToS3` returns, by the backend's answer. -/
theorem uploadToS3_result (s : S3Client) (env : Env) (file : List UInt8)
    (directory filename : String) (w : World) :
    (uploadToS3 s env file directory filename w).1 =
      (match s.client w.puts
          { Bucket := s.bucket, Key := directory ++ "/" ++ env.uuid w.uuidCount ++ Ext filename,
            Body := file, ContentType := env.DetectContentType file } with
       | none =>
         ("https://" ++ s.bucket ++ ".s3." ++ env.AWS_REGION ++ ".amazonaws.com/" ++
            (directory ++ "/" ++ env.uuid w.uuidCount ++ Ext filename), none)
       | some e => ("", some ("failed to upload file: " ++ e))) := by
  simp only [uploadToS3]
  cases s.client w.puts
      { Bucket := s.bucket, Key := directory ++ "/" ++ env.uuid w.uuidCount ++ Ext filename,
        Body := file, ContentType := env.DetectContentType file } <;> rfl

/-- The world `uploadToS3` leaves: one more identifier drawn, one more put issued. -/
theorem uploadToS3_world (s : S3Client) (env : Env) (file : List UInt8)
    (directory filename : String) (w : World) :
    (uploadToS3 s env file directory filename w).2 =
      { w with
        uuidCount := w.uuidCount + 1,
        puts := w.puts ++
          [{ Bucket := s.bucket, Key := directory ++ "/" ++ env.uuid w.uuidCount ++ Ext filename,
             Body := file, ContentType := env.DetectContentType file }] } := by
  simp only [uploadToS3]
  cases s.client w.puts
      { Bucket := s.bucket, Key := directory ++ "/" ++ env.uuid w.uuidCount ++ Ext filename,
        Body := file, ContentType := env.DetectContentType file } <;> rfl

/-- Claim C5. A call of `uploadToS3` issues exactly one put, on the client's bucket, under
the key `directory + "/" + u + ext`, with the file as body and the sniffed content type,
where `u` is the identifier drawn and `ext` the extension of the original file name as
the documentation words it; when the backend accepts the put the call returns the URL
`"https://" + bucket + ".s3." + region + ".amazonaws.com/" + key` and a nil error, and
when the backend answers with an error `e` it returns the empty URL and the error
`"failed to upload file: " + e`. -/
theorem uploadToS3_one_put_and_result (s : S3Client) (env : Env) (file : List UInt8)
    (directory filename : String) (w : World) :
    (uploadToS3 s env file directory filename w).2.puts =
        w.puts ++ [{ Bucket := s.bucket,
                     Key := directory ++ "/" ++ env.uuid w.uuidCount ++ extSpec filename,
                     Body := file, ContentType := env.DetectContentType file }] ∧
    (uploadToS3 s env file directory filename w).1 =
      (match s.client w.puts
          { Bucket := s.bucket,
            Key := directory ++ "/" ++ env.uuid w.uuidCount ++ extSpec filename,
            Body := file, ContentType := env.DetectContentType file } with
       | none =>
         ("https://" ++ s.bucket ++ ".s3." ++ env.AWS_REGION ++ ".amazonaws.com/" ++
            (directory ++ "/" ++ env.uuid w.uuidCount ++ extSpec filename), none)
       | some e => ("", some ("failed to upload file: " ++ e))) := by
  rw [← Ext_eq_extSpec, uploadToS3_result, uploadToS3_world]
  exact ⟨rfl, rfl⟩

/-- Claim C7, as amended. Two calls of `uploadToS3`, with any clients, directories, file
names, contents and worlds, that draw distinct canonical UUID strings put under
different keys; and when the two clients have the same bucket, the region is the same
and at least one of the two calls returns without error, the two returned URLs differ. -/
theorem uploadToS3_no_collision (s1 s2 : S3Client) (env1 env2 : Env) (file1 file2 : List UInt8)
    (dir1 dir2 fn1 fn2 : String) (w1 w2 : World)
    (hu1 : isCanonicalUUID (env1.uuid w1.uuidCount) = true)
    (hu2 : isCanonicalUUID (env2.uuid w2.uuidCount) = true)
    (hne : env1.uuid w1.uuidCount ≠ env2.uuid w2.uuidCount) :
    (∃ p1 p2, (uploadToS3 s1 env1 file1 dir1 fn1 w1).2.puts = w1.puts ++ [p1] ∧
        (uploadToS3 s2 env2 file2 dir2 fn2 w2).2.puts = w2.puts ++ [p2] ∧ p1.Key ≠ p2.Key) ∧
    (s1.bucket = s2.bucket → env1.AWS_REGION = env2.AWS_REGION →
      ((uploadToS3 s1 env1 file1 dir1 fn1 w1).1.2 = none ∨
        (uploadToS3 s2 env2 file2 dir2 fn2 w2).1.2 = none) →
      (uploadToS3 s1 env1 file1 dir1 fn1 w1).1.1 ≠ (uploadToS3 s2 env2 file2 dir2 fn2 w2).1.1) := by
  have hk := key_ne dir1 dir2 _ _ fn1 fn2 hu1 hu2 hne
  have hp : ∀ (b r k : String), "https://" ++ b ++ ".s3." ++ r ++ ".amazonaws.com/" ++ k ≠ "" := by
    intro b r k
    simp only [String.append_assoc]
    exact append_ne_empty _ _ (by decide)
  refine ⟨⟨{ Bucket := s1.bucket, Key := dir1 ++ "/" ++ env1.uuid w1.uuidCount ++ Ext fn1,
              Body := file1, ContentType := env1.DetectContentType file1 },
            { Bucket := s2.bucket, Key := dir2 ++ "/" ++ env2.uuid w2.uuidCount ++ Ext fn2,
              Body := file2, ContentType := env2.DetectContentType file2 }, ?_, ?_, hk⟩, ?_⟩
  · rw [uploadToS3_world]
  · rw [uploadToS3_world]
  · intro hb hr hok
    rw [uploadToS3_result, uploadToS3_result] at hok ⊢
    rw [hb, hr] at *
    cases h1 : s1.client w1.puts
        { Bucket := s2.bucket, Key := dir1 ++ "/" ++ env1.uuid w1.uuidCount ++ Ext fn1,
          Body := file1, ContentType := env1.DetectContentType file1 } <;>
      cases h2 : s2.client w2.puts
        { Bucket := s2.bucket, Key := dir2 ++ "/" ++ env2.uuid w2.uuidCount ++ Ext fn2,
          Body := file2, ContentType := env2.DetectContentType file2 }
    · exact fun h => hk (append_left_cancel _ _ _ h)
    · exact hp _ _ _
    · exact fun h => hp _ _ _ h.symm
    · rw [h1, h2] at hok
      simp at hok

theorem uploadToS3_no_collision_witness :
    isCanonicalUUID (sampleEnv.uuid sampleWorld.uuidCount) = true ∧
      sampleEnv.uuid sampleWorld.uuidCount ≠
        sampleEnv.uuid
          (uploadToS3 okClient sampleEnv [1, 2] "uploads" "menu.pdf" sampleWorld).2.uuidCount ∧
      (uploadToS3 okClient sampleEnv [1, 2] "uploads" "menu.pdf" sampleWorld).1.1 ≠
        (uploadToS3 okClient sampleEnv [1, 2] "uploads" "menu.pdf"
          (uploadToS3 okClient sampleEnv [1, 2] "uploads" "menu.pdf" sampleWorld).2).1.1 :=
  ⟨by decide, by decide,
    (uploadToS3_no_collision okClient okClient sampleEnv sampleEnv [1, 2] [1, 2]
      "uploads" "uploads" "menu.pdf" "menu.pdf" sampleWorld
      (uploadToS3 okClient sampleEnv [1, 2] "uploads" "menu.pdf" sampleWorld).2
      (by decide) (by decide) (by decide)).2 rfl rfl (Or.inl rfl)⟩

/-- Claim C7 as stated fails: two calls on the same bucket and region that draw distinct
canonical identifiers and are both refused by the backend return the same URL, the
empty one. -/
theorem uploadToS3_refused_calls_same_url :
    isCanonicalUUID (sampleEnv.uuid sampleWorld.uuidCount) = true ∧
      isCanonicalUUID (sampleEnv.uuid
        (uploadToS3 refusingClient sampleEnv [1, 2] "uploads" "menu.pdf"
          sampleWorld).2.uuidCount) = true ∧
      sampleEnv.uuid sampleWorld.uuidCount ≠
        sampleEnv.uuid
          (uploadToS3 refusingClient sampleEnv [1, 2] "uploads" "menu.pdf"
            sampleWorld).2.uuidCount ∧
      ¬ ((uploadToS3 refusingClient sampleEnv [1, 2] "uploads" "menu.pdf" sampleWorld).1.1 ≠
        (uploadToS3 refusingClient sampleEnv [1, 2] "uploads" "menu.pdf"
          (uploadToS3 refusingClient sampleEnv [1, 2] "uploads" "menu.pdf"
            sampleWorld).2).1.1) :=
  ⟨by decide, by decide, by decide, fun h => h rfl⟩

/-! ## The handler: exits that store nothing -/

/-- Claim C9. A request with method OPTIONS, whatever its body, its form and the
backend, is answered with status 200, the three CORS headers and nothing else, and an
empty body; the request is left as it came (its form is not parsed) and the world is
unchanged (no put is issued, no identifier drawn, no file opened). -/
theorem handleUpload_options (s : S3Client) (env : Env) (r : Request) (w : World)
    (hm : r.Method = "OPTIONS") :
    (handleUpload s env r w).resp =
        .ok { header := [("Access-Control-Allow-Origin", "*"),
                         ("Access-Control-Allow-Methods", "POST, OPTIONS"),
                         ("Access-Control-Allow-Headers", "Content-Type")],
              status := some 200, body := Body.empty } ∧
      (handleUpload s env r w).req = r ∧
      (handleUpload s env r w).world = w ∧
      (handleUpload s env r w).world.puts = w.puts := by
  have h : handleUpload s env r w =
      { resp := .ok { header := [("Access-Control-Allow-Origin", "*"),
                                 ("Access-Control-Allow-Methods", "POST, OPTIONS"),
                                 ("Access-Control-Allow-Headers", "Content-Type")],
                      status := some 200, body := Body.empty },
        req := r, world := w } := by
    simp only [handleUpload, hm, if_true]
    rfl
  rw [h]
  exact ⟨rfl, rfl, rfl, rfl⟩

theorem handleUpload_options_witness :
    (sampleRequest "OPTIONS" (some threeFields)).Method = "OPTIONS" ∧
      (handleUpload secondFailsClient sampleEnv (sampleRequest "OPTIONS" (some threeFields))
          sampleWorld).resp =
        .ok { header := [("Access-Control-Allow-Origin", "*"),
                         ("Access-Control-Allow-Methods", "POST, OPTIONS"),
                         ("Access-Control-Allow-Headers", "Content-Type")],
              status := some 200, body := Body.empty } :=
  ⟨rfl, (handleUpload_options secondFailsClient sampleEnv
    (sampleRequest "OPTIONS" (some threeFields)) sampleWorld rfl).1⟩

/-- Claim C3. A POST request whose parsed multipart form has no file field is answered
with status 400 and the plain-text line `No files uploaded` (the message, ended by the
newline `http.Error` adds), and the world is unchanged: no put is issued. -/
theorem handleUpload_no_files (s : S3Client) (env : Env) (r : Request) (w : World)
    (form : multipart.Form) (hm : r.Method = "POST")
    (hparse : (r.parse (10 <<< 20)).2 = some form) (hnone : form.File = []) :
    (handleUpload s env r w).resp =
        .ok { header := [("Access-Control-Allow-Origin", "*"),
                         ("Access-Control-Allow-Methods", "POST, OPTIONS"),
                         ("Access-Control-Allow-Headers", "Content-Type"),
                         ("Content-Type", "text/plain; charset=utf-8"),
                         ("X-Content-Type-Options", "nosniff")],
              status := some 400, body := Body.line "No files uploaded" } ∧
      (handleUpload s env r w).world = w ∧
      (handleUpload s env r w).world.puts = w.puts := by
  have hne : ¬ r.Method = "OPTIONS" := by rw [hm]; decide
  simp only [handleUpload, hne, if_false, ParseMultipartForm, hparse, hnone]
  exact ⟨rfl, rfl, rfl⟩

theorem handleUpload_no_files_witness :
    (handleUpload okClient sampleEnv
        (sampleRequest "POST" (some noFields)) sampleWorld).resp =
      .ok { header := [("Access-Control-Allow-Origin", "*"),
                       ("Access-Control-Allow-Methods", "POST, OPTIONS"),
                       ("Access-Control-Allow-Headers", "Content-Type"),
                       ("Content-Type", "text/plain; charset=utf-8"),
                       ("X-Content-Type-Options", "nosniff")],
            status := some 400, body := Body.line "No files uploaded" } :=
  (handleUpload_no_files okClient sampleEnv (sampleRequest "POST" (some noFields)) sampleWorld
    noFields rfl rfl rfl).1

/-- Claim C4, at a request the handler fails on. A POST request with an empty body:
`ParseMultipartForm` fails and leaves `r.MultipartForm` nil, the handler ignores the
error, and the read `r.MultipartForm.File` panics; no 400 response is written. -/
theorem handleUpload_unparsed_body_panics :
    (handleUpload okClient sampleEnv (sampleRequest "POST" none) sampleWorld).resp =
      .error "runtime error: invalid memory address or nil pointer dereference" := by
  rfl

/-! ## The loop over the file fields -/

/-- One turn of the loop on a field that has an attachment, by what the open, the read
and the backend answer. -/
theorem uploadLoop_cons (s : S3Client) (env : Env) (directory tag : String)
    (fh : multipart.FileHeader) (rest : List multipart.FileHeader)
    (tags : List (String × List multipart.FileHeader)) (urls : List (String × String))
    (defers : List Nat) (w : World) :
    uploadLoop s env directory ((tag, fh :: rest) :: tags) urls defers w =
      (match fh.Open with
       | .error err => (LoopEnd.abort ("Error opening file: " ++ err), defers, w)
       | .ok file =>
         match file.ReadAll with
         | .error err =>
           (LoopEnd.abort ("Error reading file: " ++ err), w.nextHandle :: defers,
             { w with openFiles := w.nextHandle :: w.openFiles, nextHandle := w.nextHandle + 1 })
         | .ok b =>
           match s.client w.puts
              { Bucket := s.bucket,
                Key := directory ++ "/" ++ env.uuid w.uuidCount ++ Ext fh.Filename,
                Body := b, ContentType := env.DetectContentType b } with
           | some e =>
             (LoopEnd.abort ("Error uploading to S3: " ++ ("failed to upload file: " ++ e)),
               w.nextHandle :: defers,
               { uuidCount := w.uuidCount + 1,
                 puts := w.puts ++
                   [{ Bucket := s.bucket,
                      Key := directory ++ "/" ++ env.uuid w.uuidCount ++ Ext fh.Filename,
                      Body := b, ContentType := env.DetectContentType b }],
                 openFiles := w.nextHandle :: w.openFiles, nextHandle := w.nextHandle + 1 })
           | none =>
             uploadLoop s env directory tags
               (mapSet urls tag
                 ("https://" ++ s.bucket ++ ".s3." ++ env.AWS_REGION ++ ".amazonaws.com/" ++
                   (directory ++ "/" ++ env.uuid w.uuidCount ++ Ext fh.Filename)))
               (w.nextHandle :: defers)
               { uuidCount := w.uuidCount + 1,
                 puts := w.puts ++
                   [{ Bucket := s.bucket,
                      Key := directory ++ "/" ++ env.uuid w.uuidCount ++ Ext fh.Filename,
                      Body := b, ContentType := env.DetectContentType b }],
                 openFiles := w.nextHandle :: w.openFiles, nextHandle := w.nextHandle + 1 }) := by
  rw [uploadLoop]
  cases hO : fh.Open with
  | error err => rfl
  | ok file =>
    cases hR : file.ReadAll with
    | error err => simp only [World.openFile, hR]
    | ok b =>
      simp only [World.openFile, hR, uploadToS3]
      cases hc : s.client w.puts
          { Bucket := s.bucket,
            Key := directory ++ "/" ++ env.uuid w.uuidCount ++ Ext fh.Filename,
            Body := b, ContentType := env.DetectContentType b } with
      | none => rfl
      | some e => rfl

theorem uploadLoop_skip (s : S3Client) (env : Env) (directory tag : String)
    (tags : List (String × List multipart.FileHeader)) (urls : List (String × String))
    (defers : List Nat) (w : World) :
    uploadLoop s env directory ((tag, []) :: tags) urls defers w =
      uploadLoop s env directory tags urls defers w := by
  rw [uploadLoop]

/-- The handles the loop opens are exactly those it registers for closing. -/
theorem uploadLoop_handles (s : S3Client) (env : Env) (directory : String)
    (tags : List (String × List multipart.FileHeader)) :
    ∀ (urls : List (String × String)) (defers : List Nat) (w : World),
      ∃ hs, (uploadLoop s env directory tags urls defers w).2.1 = hs ++ defers ∧
        (uploadLoop s env directory tags urls defers w).2.2.openFiles = hs ++ w.openFiles := by
  induction tags with
  | nil => intro urls defers w; exact ⟨[], rfl, rfl⟩
  | cons t tags ih =>
    intro urls defers w
    obtain ⟨tag, files⟩ := t
    cases files with
    | nil => rw [uploadLoop_skip]; exact ih urls defers w
    | cons fh rest =>
      rw [uploadLoop_cons]
      split
      · exact ⟨[], rfl, rfl⟩
      · split
        · exact ⟨[w.nextHandle], rfl, rfl⟩
        · split
          · exact ⟨[w.nextHandle], rfl, rfl⟩
          · rename_i _ file _ _ b _ _ _
            obtain ⟨hs, h1, h2⟩ := ih
              (mapSet urls tag
                ("https://" ++ s.bucket ++ ".s3." ++ env.AWS_REGION ++ ".amazonaws.com/" ++
                  (directory ++ "/" ++ env.uuid w.uuidCount ++ Ext fh.Filename)))
              (w.nextHandle :: defers)
              { uuidCount := w.uuidCount + 1,
                puts := w.puts ++
                  [{ Bucket := s.bucket,
                     Key := directory ++ "/" ++ env.uuid w.uuidCount ++ Ext fh.Filename,
                     Body := b, ContentType := env.DetectContentType b }],
                openFiles := w.nextHandle :: w.openFiles, nextHandle := w.nextHandle + 1 }
            refine ⟨hs ++ [w.nextHandle], ?_, ?_⟩
            · rw [h1]; simp
            · rw [h2]; simp

/-- Running the deferred closes of handles that head the open list removes them. -/
theorem runDefers_openFiles (hs : List Nat) :
    ∀ (w : World) (o : List Nat), w.openFiles = hs ++ o → (runDefers hs w).openFiles = o := by
  induction hs with
  | nil => intro w o h; simpa [runDefers] using h
  | cons h hs ih =>
    intro w o hw
    have : runDefers (h :: hs) w = runDefers hs (w.closeFile h) := rfl
    rw [this]
    apply ih
    simp [World.closeFile, hw]

theorem runDefers_puts (hs : List Nat) : ∀ (w : World), (runDefers hs w).puts = w.puts := by
  induction hs with
  | nil => intro w; rfl
  | cons h hs ih =>
    intro w
    have : runDefers (h :: hs) w = runDefers hs (w.closeFile h) := rfl
    rw [this, ih]
    rfl

/-- Every put the loop issues has a key under the directory. -/
theorem uploadLoop_keys (s : S3Client) (env : Env) (directory : String)
    (tags : List (String × List multipart.FileHeader)) :
    ∀ (urls : List (String × String)) (defers : List Nat) (w : World),
      ∃ new, (uploadLoop s env directory tags urls defers w).2.2.puts = w.puts ++ new ∧
        ∀ p ∈ new, ∃ rest, p.Key = directory ++ "/" ++ rest := by
  induction tags with
  | nil => intro urls defers w; exact ⟨[], by simp [uploadLoop], by simp⟩
  | cons t tags ih =>
    intro urls defers w
    obtain ⟨tag, files⟩ := t
    cases files with
    | nil => rw [uploadLoop_skip]; exact ih urls defers w
    | cons fh rest =>
      rw [uploadLoop_cons]
      split
      · exact ⟨[], by simp, by simp⟩
      · split
        · exact ⟨[], by simp, by simp⟩
        · split
          · refine ⟨[_], rfl, ?_⟩
            intro p hp
            rw [List.mem_singleton] at hp
            subst hp
            exact ⟨env.uuid w.uuidCount ++ Ext fh.Filename, by simp [String.append_assoc]⟩
          · rename_i _ file _ _ b _ _ _
            obtain ⟨new, h1, h2⟩ := ih
              (mapSet urls tag
                ("https://" ++ s.bucket ++ ".s3." ++ env.AWS_REGION ++ ".amazonaws.com/" ++
                  (directory ++ "/" ++ env.uuid w.uuidCount ++ Ext fh.Filename)))
              (w.nextHandle :: defers)
              { uuidCount := w.uuidCount + 1,
                puts := w.puts ++
                  [{ Bucket := s.bucket,
                     Key := directory ++ "/" ++ env.uuid w.uuidCount ++ Ext fh.Filename,
                     Body := b, ContentType := env.DetectContentType b }],
                openFiles := w.nextHandle :: w.openFiles, nextHandle := w.nextHandle + 1 }
            refine ⟨{ Bucket := s.bucket,
                      Key := directory ++ "/" ++ env.uuid w.uuidCount ++ Ext fh.Filename,
                      Body := b, ContentType := env.DetectContentType b } :: new, ?_, ?_⟩
            · rw [h1]; simp
            · intro p hp
              rcases List.mem_cons.1 hp with hp | hp
              · subst hp
                exact ⟨env.uuid w.uuidCount ++ Ext fh.Filename, by simp [String.append_assoc]⟩
              · exact h2 p hp

theorem mem_mapSet {β : Type} (m : List (String × β)) (k : String) (v : β) (x : String × β)
    (h : x ∈ mapSet m k v) : x ∈ m ∨ x = (k, v) := by
  induction m with
  | nil => simpa [mapSet] using h
  | cons e m ih =>
    obtain ⟨k', v'⟩ := e
    by_cases hk : k' = k
    · simp only [mapSet, hk, if_true, List.mem_cons] at h
      rcases h with h | h
      · exact Or.inr h
      · exact Or.inl (List.mem_cons_of_mem _ h)
    · simp only [mapSet, hk, if_false, List.mem_cons] at h
      rcases h with h | h
      · exact Or.inl (h ▸ List.mem_cons_self _ _)
      · rcases ih h with h | h
        · exact Or.inl (List.mem_cons_of_mem _ h)
        · exact Or.inr h

/-- Every URL the loop adds to `urls` is the bucket's address followed by a key under
the directory. -/
theorem uploadLoop_urls (s : S3Client) (env : Env) (directory : String)
    (tags : List (String × List multipart.FileHeader)) :
    ∀ (urls : List (String × String)) (defers : List Nat) (w : World)
      (m : List (String × String)),
      (uploadLoop s env directory tags urls defers w).1 = LoopEnd.done m →
        ∀ x ∈ m, x ∈ urls ∨ ∃ rest, x.2 =
          "https://" ++ s.bucket ++ ".s3." ++ env.AWS_REGION ++ ".amazonaws.com/" ++
            (directory ++ "/" ++ rest) := by
  induction tags with
  | nil =>
    intro urls defers w m h x hx
    simp only [uploadLoop, LoopEnd.done.injEq] at h
    exact Or.inl (h ▸ hx)
  | cons t tags ih =>
    intro urls defers w m
    obtain ⟨tag, files⟩ := t
    cases files with
    | nil => rw [uploadLoop_skip]; exact ih urls defers w m
    | cons fh rest =>
      rw [uploadLoop_cons]
      split
      · intro h; exact absurd h (by simp)
      · split
        · intro h; exact absurd h (by simp)
        · split
          · intro h; exact absurd h (by simp)
          · intro h x hx
            rcases ih _ _ _ m h x hx with h1 | h1
            · rcases mem_mapSet _ _ _ _ h1 with h2 | h2
              · exact Or.inl h2
              · refine Or.inr ⟨env.uuid w.uuidCount ++ Ext fh.Filename, ?_⟩
                rw [h2]
                simp [String.append_assoc]
            · exact Or.inr h1

/-! ## The handler: requests with file fields -/

/-- The handler on a request that is not OPTIONS and whose form has a file field: the
loop runs, the deferred closes run, and the response is the 500 of the abort or the 200
with the collected `urls`. -/
theorem handleUpload_fields (s : S3Client) (env : Env) (r : Request) (w : World)
    (form : multipart.Form) (hm : r.Method ≠ "OPTIONS")
    (hparse : (r.parse (10 <<< 20)).2 = some form) (hne : form.File ≠ []) :
    handleUpload s env r w =
      { resp := .ok
          (match (uploadLoop s env (directoryOf r) form.File [] [] w).1 with
           | LoopEnd.abort error =>
             { header := [("Access-Control-Allow-Origin", "*"),
                          ("Access-Control-Allow-Methods", "POST, OPTIONS"),
                          ("Access-Control-Allow-Headers", "Content-Type"),
                          ("Content-Type", "text/plain; charset=utf-8"),
                          ("X-Content-Type-Options", "nosniff")],
               status := some 500, body := Body.line error }
           | LoopEnd.done urls =>
             { header := [("Access-Control-Allow-Origin", "*"),
                          ("Access-Control-Allow-Methods", "POST, OPTIONS"),
                          ("Access-Control-Allow-Headers", "Content-Type"),
                          ("Content-Type", "application/json")],
               status := some 200, body := Body.json { URLs := urls } }),
        req := ParseMultipartForm r (10 <<< 20),
        world := runDefers (uploadLoop s env (directoryOf r) form.File [] [] w).2.1
          (uploadLoop s env (directoryOf r) form.File [] [] w).2.2 } := by
  have hl : ¬ form.File.length = 0 := fun h => hne (List.length_eq_zero.1 h)
  have hp : (ParseMultipartForm r (10 <<< 20)).MultipartForm = some form := hparse
  simp only [handleUpload, hm, if_false, hp, hl, directoryOf]
  split
  · rename_i h; simp only [h]; rfl
  · rename_i h; simp only [h]; rfl

/-- The handler on a request that is not OPTIONS and whose form has no file field. -/
theorem handleUpload_empty (s : S3Client) (env : Env) (r : Request) (w : World)
    (form : multipart.Form) (hm : r.Method ≠ "OPTIONS")
    (hparse : (r.parse (10 <<< 20)).2 = some form) (hnone : form.File = []) :
    handleUpload s env r w =
      { resp := .ok { header := [("Access-Control-Allow-Origin", "*"),
                                 ("Access-Control-Allow-Methods", "POST, OPTIONS"),
                                 ("Access-Control-Allow-Headers", "Content-Type"),
                                 ("Content-Type", "text/plain; charset=utf-8"),
                                 ("X-Content-Type-Options", "nosniff")],
                      status := some 400, body := Body.line "No files uploaded" },
        req := ParseMultipartForm r (10 <<< 20), world := w } := by
  have hp : (ParseMultipartForm r (10 <<< 20)).MultipartForm = some form := hparse
  simp only [handleUpload, hm, if_false, hp, hnone]
  rfl

/-- The handler on a request that is not OPTIONS and whose body did not parse. -/
theorem handleUpload_unparsed (s : S3Client) (env : Env) (r : Request) (w : World)
    (hm : r.Method ≠ "OPTIONS") (hparse : (r.parse (10 <<< 20)).2 = none) :
    handleUpload s env r w =
      { resp := .error "runtime error: invalid memory address or nil pointer dereference",
        req := ParseMultipartForm r (10 <<< 20), world := w } := by
  have hp : (ParseMultipartForm r (10 <<< 20)).MultipartForm = none := hparse
  simp only [handleUpload, hm, if_false, hp]

/-- The handler on an OPTIONS request. -/
theorem handleUpload_preflight (s : S3Client) (env : Env) (r : Request) (w : World)
    (hm : r.Method = "OPTIONS") :
    handleUpload s env r w =
      { resp := .ok { header := [("Access-Control-Allow-Origin", "*"),
                                 ("Access-Control-Allow-Methods", "POST, OPTIONS"),
                                 ("Access-Control-Allow-Headers", "Content-Type")],
                      status := some 200, body := Body.empty },
        req := r, world := w } := by
  simp only [handleUpload, hm, if_true]
  rfl

/-- Claim C10. When the handler returns, on every exit path (the preflight answer, the
panic, the 400, the 500 after a failed open, read or store, the 200), the open file
handles are those that were open before the call: every handle the call opened has been
closed by its deferred `Close`. -/
theorem handleUpload_closes_files (s : S3Client) (env : Env) (r : Request) (w : World) :
    (handleUpload s env r w).world.openFiles = w.openFiles := by
  by_cases hm : r.Method = "OPTIONS"
  · rw [handleUpload_preflight s env r w hm]
  · cases hparse : (r.parse (10 <<< 20)).2 with
    | none => rw [handleUpload_unparsed s env r w hm hparse]
    | some form =>
      by_cases hne : form.File = []
      · rw [handleUpload_empty s env r w form hm hparse hne]
      · rw [handleUpload_fields s env r w form hm hparse hne]
        obtain ⟨hs, h1, h2⟩ := uploadLoop_handles s env (directoryOf r) form.File [] [] w
        show (runDefers _ _).openFiles = w.openFiles
        rw [h1, List.append_nil]
        exact runDefers_openFiles hs _ _ h2

/-- On the sample request with three file fields the loop opens the handles 3, 4 and 5
and holds them to its end; the deferred closes then release all three. -/
theorem handleUpload_sample_handles :
    (uploadLoop okClient sampleEnv "archive" threeFields.File [] [] sampleWorld).2.2.openFiles =
        [5, 4, 3] ∧
      (handleUpload okClient sampleEnv (sampleRequest "POST" (some threeFields))
        sampleWorld).world.openFiles = [] ∧
      (handleUpload okClient sampleEnv (sampleRequest "POST" (some threeFields))
        sampleWorld).world.nextHandle = 6 := by
  decide

/-- Claim C8. Every response the handler writes carries the three CORS headers
`Access-Control-Allow-Origin: *`, `Access-Control-Allow-Methods: POST, OPTIONS` and
`Access-Control-Allow-Headers: Content-Type`; and it writes a response for every OPTIONS
request and for every request whose multipart form was parsed (the 400, 500 and 200
exits). -/
theorem handleUpload_cors (s : S3Client) (env : Env) (r : Request) (w : World) :
    (∀ rw, (handleUpload s env r w).resp = .ok rw →
      mapGet rw.header "Access-Control-Allow-Origin" = some "*" ∧
      mapGet rw.header "Access-Control-Allow-Methods" = some "POST, OPTIONS" ∧
      mapGet rw.header "Access-Control-Allow-Headers" = some "Content-Type") ∧
    (r.Method = "OPTIONS" ∨ (r.parse (10 <<< 20)).2 ≠ none →
      ∃ rw, (handleUpload s env r w).resp = .ok rw) := by
  by_cases hm : r.Method = "OPTIONS"
  · rw [handleUpload_preflight s env r w hm]
    refine ⟨?_, fun _ => ⟨_, rfl⟩⟩
    intro rw h
    simp only [Except.ok.injEq] at h
    subst h
    exact ⟨rfl, rfl, rfl⟩
  · cases hparse : (r.parse (10 <<< 20)).2 with
    | none =>
      rw [handleUpload_unparsed s env r w hm hparse]
      refine ⟨?_, ?_⟩
      · intro rw h
        exact absurd h (by simp)
      · intro h
        rcases h with h | h
        · exact absurd h hm
        · exact absurd rfl h
    | some form =>
      by_cases hne : form.File = []
      · rw [handleUpload_empty s env r w form hm hparse hne]
        refine ⟨?_, fun _ => ⟨_, rfl⟩⟩
        intro rw h
        simp only [Except.ok.injEq] at h
        subst h
        exact ⟨rfl, rfl, rfl⟩
      · rw [handleUpload_fields s env r w form hm hparse hne]
        refine ⟨?_, fun _ => ⟨_, rfl⟩⟩
        intro rw h
        simp only [Except.ok.injEq] at h
        subst h
        split <;> exact ⟨rfl, rfl, rfl⟩

theorem handleUpload_cors_witness :
    (handleUpload secondFailsClient sampleEnv (sampleRequest "POST" (some threeFields))
        sampleWorld).resp =
      .ok { header := [("Access-Control-Allow-Origin", "*"),
                       ("Access-Control-Allow-Methods", "POST, OPTIONS"),
                       ("Access-Control-Allow-Headers", "Content-Type"),
                       ("Content-Type", "text/plain; charset=utf-8"),
                       ("X-Content-Type-Options", "nosniff")],
            status := some 500,
            body := Body.line "Error uploading to S3: failed to upload file: AccessDenied" } ∧
      mapGet [("Access-Control-Allow-Origin", "*"),
              ("Access-Control-Allow-Methods", "POST, OPTIONS"),
              ("Access-Control-Allow-Headers", "Content-Type"),
              ("Content-Type", "text/plain; charset=utf-8"),
              ("X-Content-Type-Options", "nosniff")] "Access-Control-Allow-Origin" = some "*" :=
  ⟨rfl, ((handleUpload_cors secondFailsClient sampleEnv
    (sampleRequest "POST" (some threeFields)) sampleWorld).1 _ rfl).1⟩

/-! ## The directory -/

theorem mapGet_cons {β : Type} (e : String × β) (m : List (String × β)) (k : String) :
    mapGet (e :: m) k = if e.1 = k then some e.2 else mapGet m k := by
  by_cases h : e.1 = k
  · simp [mapGet, List.find?_cons, h]
  · simp [mapGet, List.find?_cons, h]

theorem mapGet_mapSet_same {β : Type} (m : List (String × β)) (k : String) (v : β) :
    mapGet (mapSet m k v) k = some v := by
  induction m with
  | nil => simp [mapSet, mapGet_cons]
  | cons e m ih =>
    obtain ⟨k1, v1⟩ := e
    by_cases h : k1 = k
    · simp [mapSet, h, mapGet_cons]
    · simp [mapSet, h, mapGet_cons, ih]

theorem mapGet_mapSet_other {β : Type} (m : List (String × β)) (k key : String) (v : β)
    (hk : k ≠ key) : mapGet (mapSet m k v) key = mapGet m key := by
  induction m with
  | nil => simp [mapSet, mapGet_cons, hk, mapGet]
  | cons e m ih =>
    obtain ⟨k1, v1⟩ := e
    by_cases h : k1 = k
    · subst h
      simp [mapSet, mapGet_cons, hk]
    · by_cases h2 : k1 = key
      · subst h2
        simp [mapSet, h, mapGet_cons]
      · simp [mapSet, h, mapGet_cons, h2, ih]

theorem mapGet_absent {β : Type} (m : List (String × β)) (k : String)
    (h : k ∉ m.map Prod.fst) : mapGet m k = none := by
  induction m with
  | nil => rfl
  | cons e m ih =>
    simp only [List.map_cons, List.mem_cons, not_or] at h
    have h1 : ¬ e.1 = k := fun hh => h.1 hh.symm
    rw [mapGet_cons, if_neg h1]
    exact ih h.2

/-- What `r.Form` holds for a key after the merge: the values it held, followed by those
of the multipart form. -/
theorem mapGet_mergeValues (key : String) (value : List (String × List String))
    (hnd : (value.map Prod.fst).Nodup) :
    ∀ form : List (String × List String),
      mapGet (mergeValues form value) key =
        (match mapGet value key with
         | some v => some ((mapGet form key).getD [] ++ v)
         | none => mapGet form key) := by
  induction value with
  | nil => intro form; rfl
  | cons e value ih =>
    intro form
    obtain ⟨k, v⟩ := e
    simp only [List.map_cons, List.nodup_cons] at hnd
    rw [mergeValues, ih hnd.2, mapGet_cons]
    by_cases h : k = key
    · subst h
      rw [mapGet_absent value k hnd.1, mapGet_mapSet_same]
      simp
    · rw [mapGet_mapSet_other _ _ _ _ h]
      simp [h]

/-- What `FormValue` reads after the parse: the first value of the URL query for the key,
and the first value of the multipart form only when the query has none. -/
theorem FormValue_parsed (r : Request) (form : multipart.Form) (key : String)
    (hparse : (r.parse (10 <<< 20)).2 = some form)
    (hvalues : (form.Value.map Prod.fst).Nodup) :
    FormValue (ParseMultipartForm r (10 <<< 20)) key =
      (match firstValue (r.parse (10 <<< 20)).1 key with
       | some q => q
       | none => (firstValue form.Value key).getD "") := by
  simp only [FormValue, ParseMultipartForm, hparse, mapGet_mergeValues key form.Value hvalues,
    firstValue]
  cases hq : mapGet (r.parse (10 <<< 20)).1 key with
  | none =>
    cases hv : mapGet form.Value key with
    | none => simp
    | some v => cases v <;> simp
  | some q =>
    cases q with
    | nil =>
      cases hv : mapGet form.Value key with
      | none => simp
      | some v => cases v <;> simp
    | cons q qs =>
      cases hv : mapGet form.Value key <;> simp

/-- Every POST request stores under the directory `FormValue` reads after the parse,
`uploads` when that is empty. -/
theorem handleUpload_storesUnder (s : S3Client) (env : Env) (r : Request) (w : World)
    (hne : r.Method ≠ "OPTIONS") :
    storesUnder s env w (handleUpload s env r w) (directoryOf r ++ "/") := by
  cases hparse : (r.parse (10 <<< 20)).2 with
  | none =>
    rw [handleUpload_unparsed s env r w hne hparse]
    exact ⟨⟨[], by simp, by simp⟩, fun rw v h => absurd h (by simp)⟩
  | some form =>
    by_cases hnone : form.File = []
    · rw [handleUpload_empty s env r w form hne hparse hnone]
      refine ⟨⟨[], by simp, by simp⟩, ?_⟩
      intro rw v h hb
      simp only [Except.ok.injEq] at h
      subst h
      exact absurd hb (by simp)
    · rw [handleUpload_fields s env r w form hne hparse hnone]
      refine ⟨?_, ?_⟩
      · obtain ⟨new, h1, h2⟩ := uploadLoop_keys s env (directoryOf r) form.File [] [] w
        refine ⟨new, ?_, h2⟩
        show (runDefers _ _).puts = _
        rw [runDefers_puts, h1]
      · intro rw v h hb x hx
        simp only [Except.ok.injEq] at h
        subst h
        cases hL : (uploadLoop s env (directoryOf r) form.File [] [] w).1 with
        | abort e => rw [hL] at hb; exact absurd hb (by simp)
        | done m =>
          rw [hL] at hb
          simp only [Body.json.injEq] at hb
          subst hb
          rcases uploadLoop_urls s env (directoryOf r) form.File [] [] w m hL x hx with h | h
          · exact absurd h (List.not_mem_nil _)
          · exact h

/-- Claim C6, as amended. For every POST request whose multipart form was parsed (field
names distinct, as in any map): when the URL query carries no `directory` value, every
key the handler puts under, and the path of every URL of its JSON response, starts with
`uploads/` if the `directory` form field is absent or the empty string, and with
`d + "/"` if it is the non-empty string `d`; when the URL query carries a `directory`
value, that value is the one `FormValue` reads: the prefix is `uploads/` if it is empty
and `q + "/"` if it is the non-empty string `q`, whatever the form field holds. -/
theorem handleUpload_directory (s : S3Client) (env : Env) (r : Request) (w : World)
    (form : multipart.Form) (hm : r.Method = "POST")
    (hparse : (r.parse (10 <<< 20)).2 = some form)
    (hvalues : (form.Value.map Prod.fst).Nodup) :
    (firstValue (r.parse (10 <<< 20)).1 "directory" = none →
      ((firstValue form.Value "directory" = none ∨
          firstValue form.Value "directory" = some "") →
        storesUnder s env w (handleUpload s env r w) "uploads/") ∧
      (∀ d, d ≠ "" → firstValue form.Value "directory" = some d →
        storesUnder s env w (handleUpload s env r w) (d ++ "/"))) ∧
    (firstValue (r.parse (10 <<< 20)).1 "directory" = some "" →
      storesUnder s env w (handleUpload s env r w) "uploads/") ∧
    (∀ q, q ≠ "" → firstValue (r.parse (10 <<< 20)).1 "directory" = some q →
      storesUnder s env w (handleUpload s env r w) (q ++ "/")) := by
  have hne : r.Method ≠ "OPTIONS" := by rw [hm]; decide
  have hs := handleUpload_storesUnder s env r w hne
  have hv := FormValue_parsed r form "directory" hparse hvalues
  have hdef : ∀ v, FormValue (ParseMultipartForm r (10 <<< 20)) "directory" = v → v = "" →
      storesUnder s env w (handleUpload s env r w) "uploads/" := by
    intro v h1 h2
    have : directoryOf r ++ "/" = "uploads/" := by
      simp only [directoryOf, h1, h2, if_true]
      rfl
    rw [← this]
    exact hs
  have hset : ∀ v, FormValue (ParseMultipartForm r (10 <<< 20)) "directory" = v → v ≠ "" →
      storesUnder s env w (handleUpload s env r w) (v ++ "/") := by
    intro v h1 h2
    have : directoryOf r ++ "/" = v ++ "/" := by
      simp only [directoryOf, h1, h2, if_false]
    rw [← this]
    exact hs
  refine ⟨?_, ?_, ?_⟩
  · intro hq
    rw [hq] at hv
    refine ⟨?_, ?_⟩
    · intro h
      rcases h with h | h
      · rw [h] at hv
        exact hdef _ hv rfl
      · rw [h] at hv
        exact hdef _ hv rfl
    · intro d hd h
      rw [h] at hv
      exact hset _ hv hd
  · intro hq
    rw [hq] at hv
    exact hdef _ hv rfl
  · intro q hd hq
    rw [hq] at hv
    exact hset _ hv hd

theorem handleUpload_directory_witness :
    (firstValue ((sampleRequest "POST" (some plainField)).parse (10 <<< 20)).1 "directory" = none ∧
      firstValue plainField.Value "directory" = none ∧
      (handleUpload okClient sampleEnv (sampleRequest "POST" (some plainField))
        sampleWorld).world.puts.map PutObjectInput.Key =
        ["uploads/123e4567-e89b-42d3-a456-426614174000.png"] ∧
      storesUnder okClient sampleEnv sampleWorld
        (handleUpload okClient sampleEnv (sampleRequest "POST" (some plainField)) sampleWorld)
        "uploads/") ∧
    (firstValue ((sampleRequest "POST" (some threeFields)).parse (10 <<< 20)).1 "directory" = none ∧
      firstValue threeFields.Value "directory" = some "archive" ∧
      (handleUpload okClient sampleEnv (sampleRequest "POST" (some threeFields))
        sampleWorld).world.puts.map PutObjectInput.Key =
        ["archive/123e4567-e89b-42d3-a456-426614174000.png",
         "archive/9b2f0c1a-7d4e-4f6b-8a3c-5e1d2f3a4b5c.gz",
         "archive/123e4567-e89b-42d3-a456-426614174000"] ∧
      storesUnder okClient sampleEnv sampleWorld
        (handleUpload okClient sampleEnv (sampleRequest "POST" (some threeFields)) sampleWorld)
        ("archive" ++ "/")) :=
  ⟨⟨rfl, rfl, rfl,
      ((handleUpload_directory okClient sampleEnv (sampleRequest "POST" (some plainField))
        sampleWorld plainField rfl rfl (by decide)).1 rfl).1 (Or.inl rfl)⟩,
    ⟨rfl, rfl, rfl,
      ((handleUpload_directory okClient sampleEnv (sampleRequest "POST" (some threeFields))
        sampleWorld threeFields rfl rfl (by decide)).1 rfl).2 "archive" (by decide) rfl⟩⟩

/-- Claim C6 as stated fails: a POST request to `/upload?directory=fromquery` whose
multipart form has the `directory` field `archive` stores under `fromquery/`, not under
`archive/`, because `FormValue` reads the URL query value first. -/
theorem handleUpload_query_directory_first :
    firstValue threeFields.Value "directory" = some "archive" ∧
      (handleUpload okClient sampleEnv
        (queryRequest "POST" [("directory", ["fromquery"])] (some threeFields))
        sampleWorld).world.puts.map PutObjectInput.Key =
        ["fromquery/123e4567-e89b-42d3-a456-426614174000.png",
         "fromquery/9b2f0c1a-7d4e-4f6b-8a3c-5e1d2f3a4b5c.gz",
         "fromquery/123e4567-e89b-42d3-a456-426614174000"] ∧
      ¬ storesUnder okClient sampleEnv sampleWorld
        (handleUpload okClient sampleEnv
          (queryRequest "POST" [("directory", ["fromquery"])] (some threeFields)) sampleWorld)
        ("archive" ++ "/") := by
  refine ⟨rfl, rfl, ?_⟩
  intro h
  obtain ⟨⟨new, h1, h2⟩, _⟩ := h
  have hk : (sampleWorld.puts ++ new).map PutObjectInput.Key =
      ["fromquery/123e4567-e89b-42d3-a456-426614174000.png",
       "fromquery/9b2f0c1a-7d4e-4f6b-8a3c-5e1d2f3a4b5c.gz",
       "fromquery/123e4567-e89b-42d3-a456-426614174000"] := by
    rw [← h1]
    rfl
  cases new with
  | nil => exact absurd hk (by simp [sampleWorld])
  | cons p new =>
    obtain ⟨rest, hr⟩ := h2 p (List.mem_cons_self _ _)
    have hp : p.Key = "fromquery/123e4567-e89b-42d3-a456-426614174000.png" := by
      have := hk
      simp only [sampleWorld, List.nil_append, List.map_cons, List.cons.injEq] at this
      exact this.1
    rw [hp] at hr
    have hd := congrArg (fun t : String => t.data.head?) hr
    simp [String.data_append] at hd

/-! ## Fail-fast -/

/-- A loop over `pre ++ post` whose turns on `pre` all succeed goes on with `post` from
the state those turns leave. -/
theorem uploadLoop_append (s : S3Client) (env : Env) (directory : String)
    (pre post : List (String × List multipart.FileHeader)) :
    ∀ (urls : List (String × String)) (defers : List Nat) (w : World)
      (urls1 : List (String × String)),
      (uploadLoop s env directory pre urls defers w).1 = LoopEnd.done urls1 →
      uploadLoop s env directory (pre ++ post) urls defers w =
        uploadLoop s env directory post urls1
          (uploadLoop s env directory pre urls defers w).2.1
          (uploadLoop s env directory pre urls defers w).2.2 := by
  induction pre with
  | nil =>
    intro urls defers w urls1 h
    simp only [uploadLoop, LoopEnd.done.injEq] at h
    subst h
    rfl
  | cons t pre ih =>
    intro urls defers w urls1
    obtain ⟨tag, files⟩ := t
    cases files with
    | nil =>
      rw [List.cons_append, uploadLoop_skip, uploadLoop_skip]
      exact ih urls defers w urls1
    | cons fh rest =>
      rw [List.cons_append, uploadLoop_cons, uploadLoop_cons]
      split
      · intro h; exact absurd h (by simp)
      · split
        · intro h; exact absurd h (by simp)
        · split
          · intro h; exact absurd h (by simp)
          · intro h; exact ih _ _ _ urls1 h

/-- Claim C2. For a POST request whose form has file fields, visited in any order
`pre ++ (tag, fh :: rest) :: post`: if the turns on the fields of `pre` succeed (however
many of them stored a file) and the first attachment `fh` of the next field fails to
open, fails to be read, or is refused by the backend in the world those turns leave,
the handler answers with status 500 and a plain-text line that reports the error, and
its body is not a JSON `urls` mapping. -/
theorem handleUpload_fail_fast (s : S3Client) (env : Env) (r : Request) (w : World)
    (form : multipart.Form) (pre post : List (String × List multipart.FileHeader))
    (tag : String) (fh : multipart.FileHeader) (rest : List multipart.FileHeader)
    (urls1 : List (String × String))
    (hm : r.Method = "POST")
    (hparse : (r.parse (10 <<< 20)).2 = some form)
    (horder : form.File = pre ++ (tag, fh :: rest) :: post)
    (hpre : (uploadLoop s env (directoryOf r) pre [] [] w).1 = LoopEnd.done urls1)
    (hfail : (∃ e, fh.Open = .error e) ∨
      (∃ f e, fh.Open = .ok f ∧ f.ReadAll = .error e) ∨
      (∃ f b e, fh.Open = .ok f ∧ f.ReadAll = .ok b ∧
        s.client (uploadLoop s env (directoryOf r) pre [] [] w).2.2.puts
          { Bucket := s.bucket,
            Key := directoryOf r ++ "/" ++
              env.uuid (uploadLoop s env (directoryOf r) pre [] [] w).2.2.uuidCount ++
              Ext fh.Filename,
            Body := b, ContentType := env.DetectContentType b } = some e)) :
    (∃ e msg, (msg = "Error opening file: " ++ e ∨ msg = "Error reading file: " ++ e ∨
          msg = "Error uploading to S3: " ++ ("failed to upload file: " ++ e)) ∧
        (handleUpload s env r w).resp =
          .ok { header := [("Access-Control-Allow-Origin", "*"),
                           ("Access-Control-Allow-Methods", "POST, OPTIONS"),
                           ("Access-Control-Allow-Headers", "Content-Type"),
                           ("Content-Type", "text/plain; charset=utf-8"),
                           ("X-Content-Type-Options", "nosniff")],
                status := some 500, body := Body.line msg }) ∧
      (∀ rw v, (handleUpload s env r w).resp = .ok rw → rw.body ≠ Body.json v) := by
  have hne : r.Method ≠ "OPTIONS" := by rw [hm]; decide
  have hnn : form.File ≠ [] := by rw [horder]; simp
  have hab : ∃ e msg, (msg = "Error opening file: " ++ e ∨ msg = "Error reading file: " ++ e ∨
        msg = "Error uploading to S3: " ++ ("failed to upload file: " ++ e)) ∧
      (uploadLoop s env (directoryOf r) form.File [] [] w).1 = LoopEnd.abort msg := by
    rw [horder, uploadLoop_append s env (directoryOf r) pre _ [] [] w urls1 hpre,
      uploadLoop_cons]
    rcases hfail with ⟨e, hO⟩ | ⟨f, e, hO, hR⟩ | ⟨f, b, e, hO, hR, hc⟩
    · exact ⟨e, _, Or.inl rfl, by rw [hO]⟩
    · exact ⟨e, _, Or.inr (Or.inl rfl), by rw [hO]; simp only [hR]⟩
    · exact ⟨e, _, Or.inr (Or.inr rfl), by rw [hO]; simp only [hR, hc]⟩
  obtain ⟨e, msg, hmsg, hL⟩ := hab
  rw [handleUpload_fields s env r w form hne hparse hnn, hL]
  refine ⟨⟨e, msg, hmsg, rfl⟩, ?_⟩
  intro rw v h
  simp only [Except.ok.injEq] at h
  subst h
  simp

theorem handleUpload_fail_fast_witness :
    (handleUpload secondFailsClient sampleEnv (sampleRequest "POST" (some threeFields))
        sampleWorld).resp =
      .ok { header := [("Access-Control-Allow-Origin", "*"),
                       ("Access-Control-Allow-Methods", "POST, OPTIONS"),
                       ("Access-Control-Allow-Headers", "Content-Type"),
                       ("Content-Type", "text/plain; charset=utf-8"),
                       ("X-Content-Type-Options", "nosniff")],
            status := some 500,
            body := Body.line "Error uploading to S3: failed to upload file: AccessDenied" } ∧
      ∀ rw v, (handleUpload secondFailsClient sampleEnv
        (sampleRequest "POST" (some threeFields)) sampleWorld).resp = .ok rw →
          rw.body ≠ Body.json v :=
  ⟨rfl, (handleUpload_fail_fast secondFailsClient sampleEnv
    (sampleRequest "POST" (some threeFields)) sampleWorld threeFields
    [("cover", [sampleFile "a.png", sampleFile "ignored.gif"])] [("logo", [sampleFile "c"])]
    "menu" (sampleFile "b.tar.gz") []
    [("cover",
      "https://bookit.s3.eu-west-1.amazonaws.com/archive/123e4567-e89b-42d3-a456-426614174000.png")]
    rfl rfl rfl rfl
    (Or.inr (Or.inr ⟨{ ReadAll := .ok [1, 2] }, [1, 2], "AccessDenied", rfl, rfl, rfl⟩))).2⟩

/-! ## Full success -/

theorem firstAttachments_skip (tag : String) (tags : List (String × List multipart.FileHeader)) :
    firstAttachments ((tag, []) :: tags) = firstAttachments tags := by
  simp [firstAttachments]

theorem firstAttachments_cons (tag : String) (fh : multipart.FileHeader)
    (rest : List multipart.FileHeader) (tags : List (String × List multipart.FileHeader)) :
    firstAttachments ((tag, fh :: rest) :: tags) = (tag, fh) :: firstAttachments tags := by
  simp [firstAttachments]

/-- The fields of `firstAttachments` are the fields that have an attachment. -/
theorem firstAttachments_fields (tags : List (String × List multipart.FileHeader)) :
    (firstAttachments tags).map Prod.fst =
      (tags.filter (fun t => !t.2.isEmpty)).map Prod.fst := by
  induction tags with
  | nil => rfl
  | cons t tags ih =>
    obtain ⟨tag, files⟩ := t
    cases files with
    | nil => rw [firstAttachments_skip, ih]; simp
    | cons fh rest => rw [firstAttachments_cons]; simp [ih]

theorem firstAttachments_nodup (tags : List (String × List multipart.FileHeader))
    (h : (tags.map Prod.fst).Nodup) : ((firstAttachments tags).map Prod.fst).Nodup := by
  rw [firstAttachments_fields]
  exact h.sublist ((List.filter_sublist _).map _)

theorem mapSet_fresh {β : Type} (m : List (String × β)) (k : String) (v : β)
    (h : k ∉ m.map Prod.fst) : mapSet m k v = m ++ [(k, v)] := by
  induction m with
  | nil => rfl
  | cons e m ih =>
    obtain ⟨k', v'⟩ := e
    simp only [List.map_cons, List.mem_cons, not_or] at h
    have hk : ¬ k' = k := fun hh => h.1 hh.symm
    simp only [mapSet, hk, if_false, List.cons_append, ih h.2]

theorem mapGet_of_getElem? {β : Type} (m : List (String × β)) (h : (m.map Prod.fst).Nodup) :
    ∀ (i : Nat) (k : String) (v : β), m[i]? = some (k, v) → mapGet m k = some v := by
  induction m with
  | nil => intro i k v hi; simp at hi
  | cons e m ih =>
    intro i k v hi
    obtain ⟨k', v'⟩ := e
    simp only [List.map_cons, List.nodup_cons] at h
    cases i with
    | zero =>
      simp only [List.getElem?_cons_zero, Option.some.injEq, Prod.mk.injEq] at hi
      simp [mapGet, hi.1, hi.2]
    | succ i =>
      simp only [List.getElem?_cons_succ] at hi
      have hmem : k ∈ m.map Prod.fst :=
        List.mem_map.2 ⟨(k, v), List.getElem?_mem hi, rfl⟩
      have hk : ¬ k' = k := fun hh => h.1 (hh ▸ hmem)
      have := ih h.2 i k v hi
      simp only [mapGet] at this ⊢
      simp [List.find?_cons, hk, this]

theorem urlsFrom_fields (s : S3Client) (env : Env) (directory : String)
    (fs : List (String × multipart.FileHeader)) :
    ∀ n, (urlsFrom s env directory n fs).map Prod.fst = fs.map Prod.fst := by
  induction fs with
  | nil => intro n; rfl
  | cons e fs ih => intro n; obtain ⟨tag, fh⟩ := e; simp [urlsFrom, ih]

theorem urlsFrom_getElem? (s : S3Client) (env : Env) (directory : String)
    (fs : List (String × multipart.FileHeader)) :
    ∀ (n i : Nat) (tag : String) (fh : multipart.FileHeader), fs[i]? = some (tag, fh) →
      (urlsFrom s env directory n fs)[i]? =
        some (tag, urlOf s env directory (env.uuid (n + i)) fh) := by
  induction fs with
  | nil => intro n i tag fh h; simp at h
  | cons e fs ih =>
    intro n i tag fh h
    obtain ⟨tag', fh'⟩ := e
    cases i with
    | zero =>
      simp only [List.getElem?_cons_zero, Option.some.injEq, Prod.mk.injEq] at h
      simp [urlsFrom, h.1, h.2]
    | succ i =>
      simp only [List.getElem?_cons_succ] at h
      simp only [urlsFrom, List.getElem?_cons_succ]
      rw [ih (n + 1) i tag fh h]
      have : n + 1 + i = n + (i + 1) := by omega
      rw [this]

theorem putsFrom_getElem? (s : S3Client) (env : Env) (directory : String)
    (fs : List (String × multipart.FileHeader)) :
    ∀ (n i : Nat) (tag : String) (fh : multipart.FileHeader), fs[i]? = some (tag, fh) →
      (putsFrom s env directory n fs)[i]? =
        some (putOf s env directory (env.uuid (n + i)) fh) := by
  induction fs with
  | nil => intro n i tag fh h; simp at h
  | cons e fs ih =>
    intro n i tag fh h
    obtain ⟨tag', fh'⟩ := e
    cases i with
    | zero =>
      simp only [List.getElem?_cons_zero, Option.some.injEq, Prod.mk.injEq] at h
      simp [putsFrom, h.2]
    | succ i =>
      simp only [List.getElem?_cons_succ] at h
      simp only [putsFrom, List.getElem?_cons_succ]
      rw [ih (n + 1) i tag fh h]
      have : n + 1 + i = n + (i + 1) := by omega
      rw [this]

/-- When every first attachment opens and reads and the backend accepts every put in
turn, the loop ends with one URL per field that has an attachment. -/
theorem uploadLoop_all_ok (s : S3Client) (env : Env) (directory : String)
    (tags : List (String × List multipart.FileHeader)) :
    ∀ (urls : List (String × String)) (defers : List Nat) (w : World),
      (∀ e ∈ firstAttachments tags, ∃ f b, e.2.Open = .ok f ∧ f.ReadAll = .ok b) →
      (∀ i p, (putsFrom s env directory w.uuidCount (firstAttachments tags))[i]? = some p →
        s.client (w.puts ++ (putsFrom s env directory w.uuidCount
          (firstAttachments tags)).take i) p = none) →
      ((urls.map Prod.fst) ++ (firstAttachments tags).map Prod.fst).Nodup →
      (uploadLoop s env directory tags urls defers w).1 =
        LoopEnd.done (urls ++ urlsFrom s env directory w.uuidCount (firstAttachments tags)) := by
  induction tags with
  | nil => intro urls defers w _ _ _; simp [uploadLoop, firstAttachments, urlsFrom]
  | cons t tags ih =>
    intro urls defers w hread hstore hnd
    obtain ⟨tag, files⟩ := t
    cases files with
    | nil =>
      rw [uploadLoop_skip]
      rw [firstAttachments_skip] at hread hstore hnd ⊢
      exact ih urls defers w hread hstore hnd
    | cons fh rest =>
      rw [firstAttachments_cons] at hread hstore hnd ⊢
      obtain ⟨f, b, hO, hR⟩ := hread (tag, fh) (List.mem_cons_self _ _)
      have hO : fh.Open = .ok f := hO
      have hb : contentOf fh = b := by simp only [contentOf, hO, hR]
      have hc := hstore 0 (putOf s env directory (env.uuid w.uuidCount) fh) (by simp [putsFrom])
      simp only [List.take_zero, List.append_nil, putOf, keyOf, hb] at hc
      rw [uploadLoop_cons, hO]
      simp only [hR, hc]
      have hfresh : tag ∉ urls.map Prod.fst := by
        intro hmem
        have := (List.nodup_append.1 hnd).2.2
        exact this hmem (List.mem_cons_self _ _)
      rw [mapSet_fresh urls tag _ hfresh, ih]
      · simp [urlsFrom, urlOf, keyOf]
      · intro e he
        exact hread e (List.mem_cons_of_mem _ he)
      · intro i p hi
        have := hstore (i + 1) p (by simpa [putsFrom] using hi)
        simpa [putsFrom, putOf, keyOf, hb] using this
      · simpa [List.nodup_append, List.nodup_cons, not_or, and_assoc, and_left_comm,
          and_comm, eq_comm] using hnd

/-- Claim C1. For a POST request whose multipart form was parsed and has at least one
file field (field names distinct, as in any map), in which the first attachment of every
field opens and reads and the backend accepts every put in turn: the handler answers
with status 200, `Content-Type: application/json` and the body `{"urls": m}`, where `m`
has exactly one entry per field that has an attachment, keyed by the field name, and the
entry of the `i`-th such field is the URL `uploadToS3` returns for the bytes and the file
name of its first attachment, built on the `i`-th identifier drawn. -/
theorem handleUpload_success (s : S3Client) (env : Env) (r : Request) (w : World)
    (form : multipart.Form)
    (hm : r.Method = "POST")
    (hparse : (r.parse (10 <<< 20)).2 = some form)
    (hfields : form.File ≠ [])
    (hkeys : (form.File.map Prod.fst).Nodup)
    (hread : ∀ e ∈ firstAttachments form.File, ∃ f b, e.2.Open = .ok f ∧ f.ReadAll = .ok b)
    (hstore : ∀ i p,
      (putsFrom s env (directoryOf r) w.uuidCount (firstAttachments form.File))[i]? = some p →
      s.client (w.puts ++
        (putsFrom s env (directoryOf r) w.uuidCount (firstAttachments form.File)).take i) p
        = none) :
    ∃ m, (handleUpload s env r w).resp =
          .ok { header := [("Access-Control-Allow-Origin", "*"),
                           ("Access-Control-Allow-Methods", "POST, OPTIONS"),
                           ("Access-Control-Allow-Headers", "Content-Type"),
                           ("Content-Type", "application/json")],
                status := some 200, body := Body.json { URLs := m } } ∧
      m.length = (form.File.filter (fun t => !t.2.isEmpty)).length ∧
      m.map Prod.fst = (form.File.filter (fun t => !t.2.isEmpty)).map Prod.fst ∧
      ∀ i tag fh, (firstAttachments form.File)[i]? = some (tag, fh) →
        mapGet m tag = some (urlOf s env (directoryOf r) (env.uuid (w.uuidCount + i)) fh) ∧
        ∀ wi : World, wi.uuidCount = w.uuidCount + i →
          wi.puts = w.puts ++
            (putsFrom s env (directoryOf r) w.uuidCount (firstAttachments form.File)).take i →
          (uploadToS3 s env (contentOf fh) (directoryOf r) fh.Filename wi).1 =
            (urlOf s env (directoryOf r) (env.uuid (w.uuidCount + i)) fh, none) := by
  have hne : r.Method ≠ "OPTIONS" := by rw [hm]; decide
  have hnd := firstAttachments_nodup form.File hkeys
  have hL := uploadLoop_all_ok s env (directoryOf r) form.File [] [] w hread hstore
    (by simpa using hnd)
  rw [List.nil_append] at hL
  have hf := urlsFrom_fields s env (directoryOf r) (firstAttachments form.File) w.uuidCount
  refine ⟨urlsFrom s env (directoryOf r) w.uuidCount (firstAttachments form.File), ?_, ?_, ?_, ?_⟩
  · rw [handleUpload_fields s env r w form hne hparse hfields, hL]
  · have := congrArg List.length hf
    rw [firstAttachments_fields] at this
    simpa using this
  · rw [hf, firstAttachments_fields]
  · intro i tag fh hi
    refine ⟨?_, ?_⟩
    · exact mapGet_of_getElem? _ (by rw [hf]; exact hnd) i tag _
        (urlsFrom_getElem? s env (directoryOf r) _ w.uuidCount i tag fh hi)
    · intro wi hu hp
      have hc := hstore i _ (putsFrom_getElem? s env (directoryOf r) _ w.uuidCount i tag fh hi)
      rw [uploadToS3_result, hu, hp]
      simp only [putOf, keyOf] at hc
      rw [hc]
      rfl

theorem handleUpload_success_witness :
    (handleUpload okClient sampleEnv (sampleRequest "POST" (some threeFields)) sampleWorld).resp =
        .ok { header := [("Access-Control-Allow-Origin", "*"),
                         ("Access-Control-Allow-Methods", "POST, OPTIONS"),
                         ("Access-Control-Allow-Headers", "Content-Type"),
                         ("Content-Type", "application/json")],
              status := some 200,
              body := Body.json { URLs :=
                [("cover",
                  "https://bookit.s3.eu-west-1.amazonaws.com/archive/123e4567-e89b-42d3-a456-426614174000.png"),
                 ("menu",
                  "https://bookit.s3.eu-west-1.amazonaws.com/archive/9b2f0c1a-7d4e-4f6b-8a3c-5e1d2f3a4b5c.gz"),
                 ("logo",
                  "https://bookit.s3.eu-west-1.amazonaws.com/archive/123e4567-e89b-42d3-a456-426614174000")] } } ∧
      ∃ m, (handleUpload okClient sampleEnv (sampleRequest "POST" (some threeFields))
            sampleWorld).resp =
          .ok { header := [("Access-Control-Allow-Origin", "*"),
                           ("Access-Control-Allow-Methods", "POST, OPTIONS"),
                           ("Access-Control-Allow-Headers", "Content-Type"),
                           ("Content-Type", "application/json")],
                status := some 200, body := Body.json { URLs := m } } ∧
        m.length = 3 :=
  ⟨rfl, by
    obtain ⟨m, h1, h2, _⟩ := handleUpload_success okClient sampleEnv
      (sampleRequest "POST" (some threeFields)) sampleWorld threeFields rfl rfl
      (by simp [threeFields]) (by decide)
      (by
        intro e he
        simp only [firstAttachments, threeFields, List.filterMap_cons, List.head?_cons,
          Option.map_some', List.filterMap_nil, List.mem_cons, List.mem_singleton,
          List.not_mem_nil, or_false] at he
        rcases he with rfl | rfl | rfl <;> exact ⟨_, _, rfl, rfl⟩)
      (fun _ _ _ => rfl)
    exact ⟨m, h1, h2⟩⟩

end Bookit
